import Mathlib

/-!
Shallow embedding of `src/index.ts` of burmajs/burma-static.

The source is a static-file route generator plus an HTTP request handler
factory.  Pure helpers (`createPattern`, `createIgnores`, `filterFiles`,
the URL classification inside `generateRoutes`) are embedded as Lean
functions on strings and lists.  External collaborators are parameters:
the MIME lookup `@burmajs/mime` is a function `String → MimeResult`, the
filesystem read is a function `String → List Nat` (file path to bytes),
and the regular-file test is a predicate `String → Bool`.  Node's
`path.join` / `path.parse` / `String.split` / `Array.join` are modelled
on their documented behaviour for slash-separated POSIX paths
(`pathJoin` filters empty parts and collapses repeated separators; the
inputs produced by the route mapper contain no `.` or `..` segments, so
dot-segment resolution is not modelled).  Collected files are given by
their paths relative to the working directory, which is what
`path.relative(process.cwd(), file)` yields for the glob results.

The per-request handler returned by `burmaStatic` is embedded as a pure
step function `handle` from (disk, route table, store contents, request)
to (response, new store contents, emitted log lines).  The npm package
`store` used for the content cache is a module-level singleton, so the
store state is shared by every handler; this is reflected by threading
one store value through successive `handle` calls regardless of which
route table they use.
-/

namespace BurmaStatic

/-- JS `String.prototype.split(sep)` for a one-character separator, on
character lists: splitting the empty string yields one empty group. -/
def splitChars (sep : Char) : List Char → List (List Char)
  | [] => [[]]
  | x :: rest =>
    match splitChars sep rest with
    | [] => [[]]
    | g :: gs => if x = sep then [] :: g :: gs else (x :: g) :: gs

/-- JS `s.split("/")` (and `file.split(path.sep)` with the POSIX
separator). -/
def splitSlash (s : String) : List String :=
  (splitChars '/' s.data).map (fun l => ⟨l⟩)

/-- JS `Array.prototype.join(sep)`: concatenate with a separator between
elements, empty string for the empty array. -/
def joinWith (sep : String) : List String → String
  | [] => ""
  | [p] => p
  | p :: rest => p ++ sep ++ joinWith sep rest

/-- Collapse a run of repeated `/` after a previous character. -/
def collapseAfter (prev : Char) : List Char → List Char
  | [] => []
  | c :: rest =>
    if prev = '/' ∧ c = '/' then collapseAfter prev rest
    else c :: collapseAfter c rest

/-- Collapse repeated `/` separators in a character list. -/
def collapseChars : List Char → List Char
  | [] => []
  | c :: rest => c :: collapseAfter c rest

/-- Node `path.normalize` restricted to separator collapsing. -/
def collapseSlashes (s : String) : String :=
  ⟨collapseChars s.data⟩

/-- Node `path.join(...parts)`: drop empty parts, join with `/`,
normalize; the join of nothing is `"."`. -/
def pathJoin (parts : List String) : String :=
  let kept := parts.filter (fun p => p ≠ "")
  if kept = [] then "." else collapseSlashes (joinWith "/" kept)

/-- Split a character list at its last `.`: returns the part before the
dot and the part from the dot on, or `none` when there is no dot. -/
def lastDotSplit : List Char → Option (List Char × List Char)
  | [] => none
  | c :: rest =>
    match lastDotSplit rest with
    | some (b, e) => some (c :: b, e)
    | none => if c = '.' then some ([], c :: rest) else none

/-- Node `path.parse` name/ext fields of a base name: the extension is
the suffix from the last dot, except when that dot is the first
character (then the extension is empty). -/
def parseNameExt (base : String) : String × String :=
  match lastDotSplit base.data with
  | some (b, e) => if b = [] then (base, "") else (⟨b⟩, ⟨e⟩)
  | none => (base, "")

/-- Result of the `@burmajs/mime` lookup: both fields may be absent. -/
structure MimeResult where
  type : Option String
  typeOf : Option String
deriving DecidableEq, Repr

/-- The `RouteObject` record built by `generateRoutes`. -/
structure RouteObject where
  file : String
  url : String
  mime : String
  typeofMime : String
  base : String
deriving DecidableEq, Repr

/-- `options?.rootPath ? `${options.rootPath}` : "/"`: JS truthiness
sends both an absent and an empty `rootPath` to `"/"`. -/
def rootpathOf : Option String → String
  | some s => if s = "" then "/" else s
  | none => "/"

/-- `options?.staticDir ?? "."`. -/
def staticDirOf : Option String → String
  | some s => s
  | none => "."

/-- The built-in ignore list `ign` of `createIgnores`. -/
def defaultIgnores : List String :=
  ["node_modules", "tsconfig.json", "README.md", "package.json",
   "package-lock.json", "LICENSE"]

/-- `[...new Set(igns)]`: first-occurrence deduplication. -/
def dedupFirst (seen : List String) : List String → List String
  | [] => []
  | x :: rest =>
    if x ∈ seen then dedupFirst seen rest
    else x :: dedupFirst (x :: seen) rest

/-- `createIgnores`: caller ignores (when present) in front of the
defaults, deduplicated with set semantics. -/
def createIgnores (ignore : Option (List String)) : List String :=
  let igns :=
    match ignore with
    | some l => l ++ defaultIgnores
    | none => defaultIgnores
  dedupFirst [] igns

/-- `filterFiles`: drop a file when any of its `/`-separated segments is
in the ignore set, then keep only regular files (the `isFile` stat test
is a parameter). -/
def filterFiles (isF : String → Bool) (files : List String)
    (ignsSet : List String) : List String :=
  (files.filter (fun file =>
    ¬ (splitSlash file).any (fun sg => decide (sg ∈ ignsSet)))).filter isF

/-- `createPattern`: glob pattern from a directory and an optional
extension list.  `ext.join()` in JS joins with a comma. -/
def createPattern (dirtpath : String) (ext : Option (List String)) : String :=
  match ext with
  | none => dirtpath ++ "/**/*"
  | some l =>
    if l.length = 1 then dirtpath ++ "/**/*." ++ joinWith "," l
    else dirtpath ++ "/**/*." ++ "\x7b" ++ joinWith "," l ++ "\x7d"

/-- The six-way `if/else` chain of `generateRoutes` that assigns `url`,
with the initial value `""` as the fall-through. -/
def classifyUrl (rootpath static_dir dir dirName name base ext : String) :
    String :=
  if dir = static_dir ∧ base = "index.html" then rootpath
  else if dir ≠ static_dir ∧ base = "index.html" then
    pathJoin [rootpath, dirName]
  else if dir = static_dir ∧ ext = ".html" then pathJoin [rootpath, name]
  else if dir ≠ static_dir ∧ ext = ".html" then
    pathJoin [rootpath, dirName, name]
  else if dir = static_dir ∧ ext ≠ ".html" then pathJoin [rootpath, base]
  else if dir ≠ static_dir ∧ ext ≠ ".html" then
    pathJoin [rootpath, dirName, base]
  else ""

/-- The `path.parse` fields of a cwd-relative file path, plus the
`_dir_name` derived by `_dir.split("/").slice(1).join("/")`. -/
structure ParsedFile where
  dir : String
  base : String
  name : String
  ext : String
  dirName : String
deriving Repr

/-- Parse a cwd-relative path the way `generateRoutes` does. -/
def parseRel (relative : String) : ParsedFile :=
  let segs := splitSlash relative
  let base := segs.getLastD ""
  let dir := joinWith "/" segs.dropLast
  let ne := parseNameExt base
  { dir := dir, base := base, name := ne.1, ext := ne.2,
    dirName := joinWith "/" ((splitSlash dir).drop 1) }

/-- The route built for one file (the MIME result is supplied; the
reduce in `generateRoutes` obtains it through the memo cache). -/
def routeOfWithMime (rootpath static_dir : String) (mt : MimeResult)
    (file : String) : RouteObject :=
  let p := parseRel file
  { file := file
    url := classifyUrl rootpath static_dir p.dir p.dirName p.name p.base p.ext
    mime := mt.type.getD ""
    typeofMime := mt.typeOf.getD ""
    base := p.base }

/-- The route built for one file with the resolver applied directly. -/
def routeOf (mimeType : String → MimeResult) (rootpath static_dir : String)
    (file : String) : RouteObject :=
  routeOfWithMime rootpath static_dir (mimeType (parseRel file).ext) file

/-- Accumulator of the `files.reduce` in `generateRoutes`: the MIME memo
cache, the routes built so far, and the extensions on which the resolver
has actually been invoked (in call order). -/
structure GenState where
  cache : List (String × MimeResult)
  routes : List RouteObject
  calls : List String

/-- Assoc-list lookup for the `mimeCache` object. -/
def cacheGet (cache : List (String × MimeResult)) (ext : String) :
    Option MimeResult :=
  (cache.find? (fun p => p.1 == ext)).map (fun p => p.2)

/-- One step of the reduce: `mimeCache[ext] ??= mimeType(ext)`, then the
six-way url classification, then appending the route. -/
def genStep (mimeType : String → MimeResult) (rootpath static_dir : String)
    (st : GenState) (file : String) : GenState :=
  let p := parseRel file
  match cacheGet st.cache p.ext with
  | some mt =>
    { st with routes := st.routes ++ [routeOfWithMime rootpath static_dir mt file] }
  | none =>
    let mt := mimeType p.ext
    { cache := (p.ext, mt) :: st.cache
      routes := st.routes ++ [routeOfWithMime rootpath static_dir mt file]
      calls := st.calls ++ [p.ext] }

/-- The whole reduce, from the empty cache and route list. -/
def genFold (mimeType : String → MimeResult) (rootpath static_dir : String)
    (files : List String) : GenState :=
  files.foldl (genStep mimeType rootpath static_dir)
    { cache := [], routes := [], calls := [] }

/-- The options record of `generateRoutes` (the fields the embedded part
consumes; `warning` only toggles a process-listener side effect). -/
structure GenOptions where
  rootPath : Option String := none
  staticDir : Option String := none
deriving Repr

/-- `generateRoutes` on an already collected list of cwd-relative files:
the produced route list. -/
def generateRoutes (mimeType : String → MimeResult) (opts : GenOptions)
    (files : List String) : List RouteObject :=
  (genFold mimeType (rootpathOf opts.rootPath) (staticDirOf opts.staticDir)
    files).routes

/-- The extensions on which the MIME resolver was invoked during a
`generateRoutes` run, in call order. -/
def genCalls (mimeType : String → MimeResult) (opts : GenOptions)
    (files : List String) : List String :=
  (genFold mimeType (rootpathOf opts.rootPath) (staticDirOf opts.staticDir)
    files).calls

/-- The embedded 404 document `html404` (verbatim; braces escaped). -/
def html404 : String :=
"
<!DOCTYPE html>
<html lang=\"en\">
  <head>
    <meta charset=\"UTF-8\" />
    <meta name=\"viewport\" content=\"width=device-width, initial-scale=1.0\" />
    <title>404</title>
    <style>
      main \x7b
        position: absolute;
        top: 50%;
        left: 50%;
        transform: translate(-50%, -50%);
        color: #888;
        text-align: center;
      \x7d
      a \x7b
        text-decoration: none;
        padding: 7px;
        border: 1px solid #888;
        color: #888;
      \x7d
    </style>
  </head>
  <body>
    <main>
      <h1>404 Not Found</h1>
      <br />
      <a href=\"/\">Home</a>
    </main>
  </body>
</html>

"

/-- The bytes a string body occupies on the wire (code points; enough to
compare bodies for identity). -/
def strBytes (s : String) : List Nat :=
  s.data.map Char.toNat

/-- An incoming request as the handler reads it: `method` and `url`. -/
structure Request where
  method : String
  url : String
deriving Repr

/-- The observable response: the status code set and the body written
(`send404` ends with the 404 document, `sendContent` with the cached
bytes, `sendFile` streams the file's bytes). -/
structure Response where
  statusCode : Nat
  body : List Nat
deriving DecidableEq, Repr

/-- The `store` key-value state: URL to cached bytes.  `set` shadows. -/
def Store := List (String × List Nat)

/-- `store.get(url)`: `undefined` becomes `none`. -/
def storeGet (st : Store) (k : String) : Option (List Nat) :=
  (List.find? (fun p => p.1 == k) st).map (fun p => p.2)

/-- `store.set(url, content)`. -/
def storeSet (st : Store) (k : String) (v : List Nat) : Store :=
  (k, v) :: st

/-- `routeObj.routes.find((i) => i.url === request.url)`: first route
whose `url` is exactly string-equal to the request url. -/
def matchRoute (routes : List RouteObject) (u : String) :
    Option RouteObject :=
  routes.find? (fun i => i.url == u)

/-- Everything one invocation of the handler produces: the response, the
store state afterwards, and the log lines printed. -/
structure HandleResult where
  response : Response
  store : Store
  log : List String

/-- One invocation of the handler returned by `burmaStatic`.  `disk`
maps a file path to its current bytes (`fs.promises.readFile` and the
`sendFile` stream read the same unchanged file). -/
def handle (disk : String → List Nat) (routes : List RouteObject)
    (st : Store) (req : Request) : HandleResult :=
  match matchRoute routes req.url with
  | none =>
    { response := { statusCode := 404, body := strBytes html404 }
      store := st
      log := [] }
  | some found =>
    match storeGet st found.url with
    | some cached =>
      let response : Response := { statusCode := 200, body := cached }
      { response := response
        store := st
        log := [req.method ++ " " ++ req.url ++ " " ++
                toString response.statusCode ++ " (from cache)"] }
    | none =>
      let content := disk found.file
      let response : Response := { statusCode := 200, body := content }
      { response := response
        store := storeSet st found.url content
        log := [req.method ++ " " ++ req.url ++ " " ++
                toString response.statusCode] }

/-! ## Concrete instances used in examples and counterexamples -/

/-- A resolver that knows no extension (both fields `undefined`). -/
def mtNone : String → MimeResult := fun _ => ⟨none, none⟩

/-- The spec's five classification examples under `staticDir "public"`,
as the cwd-relative paths the glob produces. -/
def pubFiles : List String :=
  ["public/index.html", "public/blog/index.html", "public/about.html",
   "public/logo.png", "public/assets/logo.png"]

/-- The same five files under the default `staticDir "."`. -/
def dotFiles : List String :=
  ["index.html", "blog/index.html", "about.html", "logo.png",
   "assets/logo.png"]

/-- A disk with two distinct files that map to the same URL from two
different `burmaStatic` configurations. -/
def diskTwo : String → List Nat :=
  fun f => if f = "a/x.txt" then [1] else [2]

/-- Route of the first handler: serves `/x.txt` from `a/x.txt`. -/
def routeA : RouteObject :=
  { file := "a/x.txt", url := "/x.txt", mime := "", typeofMime := ""
    base := "x.txt" }

/-- Route of the second handler: serves `/x.txt` from `b/x.txt`. -/
def routeB : RouteObject :=
  { file := "b/x.txt", url := "/x.txt", mime := "", typeofMime := ""
    base := "x.txt" }

/-- A request for the URL both handlers publish. -/
def reqX : Request := { method := "GET", url := "/x.txt" }

/-- The route generated for `about.html` at the static root. -/
def aboutRoute : RouteObject :=
  { file := "public/about.html", url := "/about", mime := "text/html"
    typeofMime := "text", base := "about.html" }

/-! ## Supporting lemmas -/

theorem ne_empty_of_data_ne_nil (s : String) (h : s.data ≠ []) : s ≠ "" :=
  fun he => h (by rw [he])

theorem data_ne_nil_of_ne_empty (s : String) (h : s ≠ "") : s.data ≠ [] := by
  intro hd
  apply h
  cases s with
  | mk d => cases hd; rfl

theorem joinWith_slash_data_ne_nil (r : String) (rest : List String)
    (h : r.data ≠ []) : (joinWith "/" (r :: rest)).data ≠ [] := by
  cases rest with
  | nil => simpa [joinWith]
  | cons b bs =>
    simp only [joinWith, String.data_append]
    intro hcon
    exact h (List.append_eq_nil.mp (List.append_eq_nil.mp hcon).1).1

theorem collapseChars_ne_nil (l : List Char) (h : l ≠ []) :
    collapseChars l ≠ [] := by
  cases l with
  | nil => exact absurd rfl h
  | cons c rest => simp [collapseChars]

theorem pathJoin_cons_ne_empty (r : String) (rest : List String)
    (h : r ≠ "") : pathJoin (r :: rest) ≠ "" := by
  unfold pathJoin
  have hfil : (r :: rest).filter (fun p => p ≠ "") =
      r :: rest.filter (fun p => p ≠ "") := by
    simp [List.filter_cons, h]
  rw [hfil]
  simp only [reduceCtorEq, if_false]
  apply ne_empty_of_data_ne_nil
  exact collapseChars_ne_nil _
    (joinWith_slash_data_ne_nil r _ (data_ne_nil_of_ne_empty r h))

theorem rootpathOf_ne_empty (o : Option String) : rootpathOf o ≠ "" := by
  cases o with
  | none => simp [rootpathOf]
  | some s =>
    by_cases h : s = "" <;> simp [rootpathOf, h]

theorem classifyUrl_ne_empty (rp sd dir dirName name base ext : String)
    (h : rp ≠ "") : classifyUrl rp sd dir dirName name base ext ≠ "" := by
  unfold classifyUrl
  split_ifs with h1 h2 h3 h4 h5 h6
  · exact h
  · exact pathJoin_cons_ne_empty _ _ h
  · exact pathJoin_cons_ne_empty _ _ h
  · exact pathJoin_cons_ne_empty _ _ h
  · exact pathJoin_cons_ne_empty _ _ h
  · exact pathJoin_cons_ne_empty _ _ h
  · tauto

theorem cacheGet_nil (e : String) :
    cacheGet [] e = none := by
  simp [cacheGet]

theorem cacheGet_cons (a : String) (v : MimeResult)
    (c : List (String × MimeResult)) (e : String) :
    cacheGet ((a, v) :: c) e = if a = e then some v else cacheGet c e := by
  by_cases h : a = e
  · simp [cacheGet, List.find?_cons_of_pos, h]
  · have hb : ((a, v).1 == e) = false := by simpa using h
    unfold cacheGet
    simp [List.find?, hb, h]

/-- Invariant of the reduce's accumulator: every memoized entry is the
resolver's value, the memo's domain is exactly the set of invoked
extensions, and no extension was invoked twice. -/
def CacheInv (mt : String → MimeResult) (st : GenState) : Prop :=
  (∀ e v, cacheGet st.cache e = some v → v = mt e) ∧
  (∀ e, (cacheGet st.cache e).isSome ↔ e ∈ st.calls) ∧
  st.calls.Nodup

theorem genStep_spec (mt : String → MimeResult) (rp sd : String)
    (st : GenState) (f : String) (hinv : CacheInv mt st) :
    CacheInv mt (genStep mt rp sd st f) ∧
    (genStep mt rp sd st f).routes = st.routes ++ [routeOf mt rp sd f] := by
  obtain ⟨h1, h2, h3⟩ := hinv
  cases hc : cacheGet st.cache (parseRel f).ext with
  | some mtv =>
    have hv : mtv = mt (parseRel f).ext := h1 _ _ hc
    simp only [genStep, hc]
    exact ⟨⟨h1, h2, h3⟩, by simp [routeOf, hv]⟩
  | none =>
    have hnotin : (parseRel f).ext ∉ st.calls := by
      rw [← h2]
      simp [hc]
    simp only [genStep, hc]
    refine ⟨⟨?_, ?_, ?_⟩, ?_⟩
    · intro e v hv
      rw [cacheGet_cons] at hv
      by_cases he : (parseRel f).ext = e
      · rw [if_pos he] at hv
        rw [← he]
        exact (Option.some_inj.mp hv).symm
      · rw [if_neg he] at hv
        exact h1 e v hv
    · intro e
      rw [cacheGet_cons]
      by_cases he : (parseRel f).ext = e
      · simp [he]
      · have hne : e ≠ (parseRel f).ext := fun h => he h.symm
        simp [he, h2 e, hne]
    · simpa [List.nodup_append] using ⟨h3, hnotin⟩
    · simp [routeOf]

theorem genFold_go (mt : String → MimeResult) (rp sd : String)
    (files : List String) :
    ∀ st : GenState, CacheInv mt st →
      CacheInv mt (files.foldl (genStep mt rp sd) st) ∧
      (files.foldl (genStep mt rp sd) st).routes =
        st.routes ++ files.map (routeOf mt rp sd) := by
  induction files with
  | nil =>
    intro st h
    exact ⟨h, by simp⟩
  | cons f fs ih =>
    intro st h
    obtain ⟨hstep, hroutes⟩ := genStep_spec mt rp sd st f h
    obtain ⟨hinv, hr⟩ := ih _ hstep
    refine ⟨hinv, ?_⟩
    rw [List.foldl_cons, hr, hroutes]
    simp

theorem emptyState_inv (mt : String → MimeResult) :
    CacheInv mt { cache := [], routes := [], calls := [] } := by
  refine ⟨?_, ?_, List.nodup_nil⟩
  · intro e v hv
    rw [cacheGet_nil] at hv
    cases hv
  · intro e
    rw [cacheGet_nil]
    simp

theorem generateRoutes_eq_map (mt : String → MimeResult)
    (opts : GenOptions) (files : List String) :
    generateRoutes mt opts files =
      files.map
        (routeOf mt (rootpathOf opts.rootPath) (staticDirOf opts.staticDir)) := by
  have h := genFold_go mt (rootpathOf opts.rootPath)
    (staticDirOf opts.staticDir) files
    { cache := [], routes := [], calls := [] } (emptyState_inv mt)
  simpa [generateRoutes, genFold] using h.2

theorem genCalls_nodup (mt : String → MimeResult) (opts : GenOptions)
    (files : List String) : (genCalls mt opts files).Nodup :=
  (genFold_go mt (rootpathOf opts.rootPath) (staticDirOf opts.staticDir)
    files { cache := [], routes := [], calls := [] }
    (emptyState_inv mt)).1.2.2

theorem matchRoute_eq_none (routes : List RouteObject) (u : String)
    (h : ∀ x ∈ routes, x.url ≠ u) : matchRoute routes u = none := by
  unfold matchRoute
  rw [List.find?_eq_none]
  intro x hx
  simpa using h x hx

theorem matchRoute_some_url (routes : List RouteObject) (u : String)
    (r : RouteObject) (h : matchRoute routes u = some r) : r.url = u := by
  have hp := List.find?_some h
  simpa using hp

theorem matchRoute_first (u : String) (pre : List RouteObject)
    (r : RouteObject) (post : List RouteObject) (hr : r.url = u)
    (hpre : ∀ p ∈ pre, p.url ≠ u) :
    matchRoute (pre ++ r :: post) u = some r := by
  induction pre with
  | nil =>
    have hb : (r.url == u) = true := by simpa using hr
    simp [matchRoute, List.find?, hb]
  | cons p ps ih =>
    have hp : p.url ≠ u := hpre p (by simp)
    have hb : (p.url == u) = false := by simpa using hp
    have ihh := ih (fun q hq => hpre q (by simp [hq]))
    simpa [matchRoute, List.find?, hb] using ihh

theorem storeGet_set_self (st : Store) (k : String) (v : List Nat) :
    storeGet (storeSet st k v) k = some v := by
  simp [storeGet, storeSet, List.find?]

theorem log_miss_eq (a : String) :
    a ++ " " ++ toString (200 : Nat) = a ++ " 200" := by
  have h : (" " ++ toString (200 : Nat) : String) = " 200" := rfl
  rw [String.append_assoc, h]

theorem log_hit_eq (a : String) :
    a ++ " " ++ toString (200 : Nat) ++ " (from cache)" =
      a ++ " 200 (from cache)" := by
  have h : (" " ++ (toString (200 : Nat) ++ " (from cache)") : String) =
      " 200 (from cache)" := rfl
  rw [String.append_assoc, String.append_assoc, h]

theorem handle_404 (disk : String → List Nat) (routes : List RouteObject)
    (st : Store) (req : Request)
    (h : matchRoute routes req.url = none) :
    handle disk routes st req =
      { response := { statusCode := 404, body := strBytes html404 }
        store := st, log := [] } := by
  simp only [handle, h]

theorem handle_hit (disk : String → List Nat) (routes : List RouteObject)
    (st : Store) (req : Request) (r : RouteObject) (c : List Nat)
    (hm : matchRoute routes req.url = some r)
    (hs : storeGet st req.url = some c) :
    handle disk routes st req =
      { response := { statusCode := 200, body := c }
        store := st
        log := [req.method ++ " " ++ req.url ++ " 200 (from cache)"] } := by
  have hu : r.url = req.url := matchRoute_some_url _ _ _ hm
  simp only [handle, hm, hu, hs, log_hit_eq]

theorem handle_miss (disk : String → List Nat) (routes : List RouteObject)
    (st : Store) (req : Request) (r : RouteObject)
    (hm : matchRoute routes req.url = some r)
    (hs : storeGet st req.url = none) :
    handle disk routes st req =
      { response := { statusCode := 200, body := disk r.file }
        store := storeSet st r.url (disk r.file)
        log := [req.method ++ " " ++ req.url ++ " 200"] } := by
  have hu : r.url = req.url := matchRoute_some_url _ _ _ hm
  simp only [handle, hm, hu, hs, log_miss_eq]

theorem mem_dedupFirst (x : String) (l : List String) :
    ∀ seen, x ∈ dedupFirst seen l ↔ x ∈ l ∧ x ∉ seen := by
  induction l with
  | nil => intro seen; simp [dedupFirst]
  | cons a rest ih =>
    intro seen
    by_cases h : a ∈ seen
    · simp only [dedupFirst, if_pos h, ih]
      constructor
      · rintro ⟨hr, hs⟩
        exact ⟨List.mem_cons_of_mem _ hr, hs⟩
      · rintro ⟨hc, hs⟩
        rcases List.mem_cons.mp hc with rfl | hr
        · exact absurd h hs
        · exact ⟨hr, hs⟩
    · simp only [dedupFirst, if_neg h, List.mem_cons, ih]
      constructor
      · rintro (rfl | ⟨hr, hs⟩)
        · exact ⟨Or.inl rfl, h⟩
        · exact ⟨Or.inr hr, fun hx => hs (Or.inr hx)⟩
      · rintro ⟨hc, hs⟩
        rcases hc with rfl | hr
        · exact Or.inl rfl
        · by_cases hxa : x = a
          · exact Or.inl hxa
          · exact Or.inr ⟨hr, fun hx => hx.elim hxa hs⟩

theorem nodup_dedupFirst (l : List String) :
    ∀ seen, (dedupFirst seen l).Nodup := by
  induction l with
  | nil => intro seen; simp [dedupFirst]
  | cons a rest ih =>
    intro seen
    by_cases h : a ∈ seen
    · simpa [dedupFirst, h] using ih seen
    · simp only [dedupFirst, if_neg h]
      rw [List.nodup_cons]
      refine ⟨?_, ih _⟩
      intro hmem
      exact ((mem_dedupFirst a rest (a :: seen)).mp hmem).2
        (List.mem_cons_self a seen)

theorem mem_createIgnores_some (ignore : List String) (s : String) :
    s ∈ createIgnores (some ignore) ↔ s ∈ ignore ∨ s ∈ defaultIgnores := by
  simp [createIgnores, mem_dedupFirst]

theorem mem_createIgnores_none (s : String) :
    s ∈ createIgnores none ↔ s ∈ defaultIgnores := by
  simp [createIgnores, mem_dedupFirst]

theorem mem_filterFiles (isF : String → Bool) (files igns : List String)
    (f : String) :
    f ∈ filterFiles isF files igns ↔
      f ∈ files ∧ (∀ sg ∈ splitSlash f, sg ∉ igns) ∧ isF f := by
  simp only [filterFiles, List.mem_filter, List.any_eq_true, decide_eq_true_eq]
  push_neg
  tauto

/-! ## Claims -/

/-- C5: the effective ignore set produced by `createIgnores` is the
duplicate-free union of the caller's list with the built-in defaults, so
it is always a superset of the defaults, and a file surviving
`filterFiles` under a custom ignore list also survives under the
defaults alone: no default-ignored path segment is ever un-ignored. -/
theorem claim_C5_ignore_union (ignore : List String) (s : String)
    (isF : String → Bool) (files : List String) :
    (∀ d ∈ defaultIgnores, d ∈ createIgnores (some ignore)) ∧
    (createIgnores (some ignore)).Nodup ∧
    (s ∈ createIgnores (some ignore) ↔ s ∈ ignore ∨ s ∈ defaultIgnores) ∧
    (∀ f ∈ filterFiles isF files (createIgnores (some ignore)),
      f ∈ filterFiles isF files (createIgnores none)) := by
  refine ⟨?_, nodup_dedupFirst _ _, mem_createIgnores_some ignore s, ?_⟩
  · intro d hd
    exact (mem_createIgnores_some ignore d).mpr (Or.inr hd)
  · intro f hf
    rw [mem_filterFiles] at hf ⊢
    obtain ⟨hmem, hsegs, hisf⟩ := hf
    refine ⟨hmem, ?_, hisf⟩
    intro sg hsg hin
    exact hsegs sg hsg
      ((mem_createIgnores_some ignore sg).mpr
        (Or.inr ((mem_createIgnores_none sg).mp hin)))

/-- C5 witness: `node_modules` stays ignored when a custom list is
supplied, and a file outside the ignore set survives filtering. -/
theorem claim_C5_ignore_union_witness :
    "node_modules" ∈ createIgnores (some ["extra"]) ∧
    "custom.txt" ∈ filterFiles (fun _ => true) ["custom.txt"]
      (createIgnores none) := by
  refine ⟨(claim_C5_ignore_union ["extra"] "" (fun _ => true) []).1
    "node_modules" (by decide), ?_⟩
  exact (claim_C5_ignore_union [] "" (fun _ => true) ["custom.txt"]).2.2.2
    "custom.txt" (by decide)

/-- C6: the dispatcher's route lookup returns the first route in table
order whose `url` is exactly string-equal to the request url: it returns
`none` when no route url equals the request url, the first equal route
otherwise, any returned route's url equals the request url, and a url
differing from `/about` only by case, a trailing slash, or an appended
query string matches no route. -/
theorem claim_C6_exact_first_match (routes : List RouteObject)
    (u : String) (pre post : List RouteObject) (r : RouteObject) :
    ((∀ x ∈ routes, x.url ≠ u) → matchRoute routes u = none) ∧
    (r.url = u → (∀ p ∈ pre, p.url ≠ u) →
      matchRoute (pre ++ r :: post) u = some r) ∧
    (∀ rr, matchRoute routes u = some rr → rr.url = u) ∧
    (matchRoute [aboutRoute] "/About" = none ∧
     matchRoute [aboutRoute] "/about/" = none ∧
     matchRoute [aboutRoute] "/about?x=1" = none ∧
     matchRoute [aboutRoute] "/about" = some aboutRoute) := by
  refine ⟨matchRoute_eq_none routes u, ?_, ?_, by decide, by decide,
    by decide, by decide⟩
  · intro hr hpre
    exact matchRoute_first u pre r post hr hpre
  · intro rr hrr
    exact matchRoute_some_url routes u rr hrr

/-- C6 witness: the general parts applied to a concrete table. -/
theorem claim_C6_exact_first_match_witness :
    matchRoute [aboutRoute] "/none" = none ∧
    matchRoute ([] ++ aboutRoute :: []) "/about" = some aboutRoute := by
  refine ⟨(claim_C6_exact_first_match [aboutRoute] "/none" [] []
    aboutRoute).1 (by decide), ?_⟩
  exact (claim_C6_exact_first_match [] "/about" [] [] aboutRoute).2.1
    (by decide) (by simp)

/-- C7: a request whose url matches no route gets status 404 with the
embedded 404 document as body, regardless of method, and the handler
leaves the store unchanged and (the route table being an input the
handler never modifies) the routes untouched. -/
theorem claim_C7_unmatched_404 (disk : String → List Nat)
    (routes : List RouteObject) (st : Store) (req : Request)
    (h : ∀ x ∈ routes, x.url ≠ req.url) :
    (handle disk routes st req).response.statusCode = 404 ∧
    (handle disk routes st req).response.body = strBytes html404 ∧
    (handle disk routes st req).store = st := by
  rw [handle_404 disk routes st req (matchRoute_eq_none _ _ h)]
  exact ⟨rfl, rfl, rfl⟩

/-- C7 witness: a POST to an empty route table. -/
theorem claim_C7_unmatched_404_witness :
    (handle (fun _ => []) [] ([] : Store)
      { method := "POST", url := "/missing" }).response.statusCode = 404 ∧
    (handle (fun _ => []) [] ([] : Store)
      { method := "POST", url := "/missing" }).response.body =
        strBytes html404 ∧
    (handle (fun _ => []) [] ([] : Store)
      { method := "POST", url := "/missing" }).store = [] :=
  claim_C7_unmatched_404 (fun _ => []) [] [] _ (by simp)

/-- C4: serving the same matched URL twice through one handler with the
file unchanged yields a second body byte-identical to the first, a
"from cache" tag on the second log line, and no tag on the first. -/
theorem claim_C4_second_serve_cached (disk : String → List Nat)
    (routes : List RouteObject) (st : Store) (req : Request)
    (r : RouteObject) (hm : matchRoute routes req.url = some r)
    (hs : storeGet st req.url = none) :
    (handle disk routes (handle disk routes st req).store req).response.body
        = (handle disk routes st req).response.body ∧
    (handle disk routes st req).log =
      [req.method ++ " " ++ req.url ++ " 200"] ∧
    (handle disk routes (handle disk routes st req).store req).log =
      [req.method ++ " " ++ req.url ++ " 200 (from cache)"] := by
  have hu : r.url = req.url := matchRoute_some_url _ _ _ hm
  have h1 := handle_miss disk routes st req r hm hs
  have hget : storeGet (handle disk routes st req).store req.url =
      some (disk r.file) := by
    rw [h1]
    rw [← hu]
    exact storeGet_set_self st r.url (disk r.file)
  have h2 := handle_hit disk routes (handle disk routes st req).store req r
    (disk r.file) hm hget
  rw [h1] at h2 ⊢
  rw [h2]
  exact ⟨rfl, rfl, rfl⟩

/-- C4 witness: the first-time and second-time serve of `/x.txt`. -/
theorem claim_C4_second_serve_cached_witness :
    (handle diskTwo [routeA]
        (handle diskTwo [routeA] ([] : Store) reqX).store reqX).response.body
      = (handle diskTwo [routeA] ([] : Store) reqX).response.body ∧
    (handle diskTwo [routeA] ([] : Store) reqX).log =
      ["GET /x.txt 200"] ∧
    (handle diskTwo [routeA]
        (handle diskTwo [routeA] ([] : Store) reqX).store reqX).log =
      ["GET /x.txt 200 (from cache)"] :=
  claim_C4_second_serve_cached diskTwo [routeA] [] reqX routeA
    (by decide) (by decide)

/-- C3 counterexample: the claim requires exactly one log line per
request including 404s, but a request matching no route is answered 404
with no log line at all. -/
theorem claim_C3_counterexample :
    (handle (fun _ => []) [] ([] : Store)
      { method := "GET", url := "/missing" }).response.statusCode = 404 ∧
    (handle (fun _ => []) [] ([] : Store)
      { method := "GET", url := "/missing" }).log = [] := by
  exact ⟨rfl, rfl⟩

/-- C3 amended: a request matching a route emits exactly one log line
in format `METHOD URL STATUS`, with the " (from cache)" suffix exactly
when the request is served from cache; a request matching no route (the
404 path) emits no log line. -/
theorem claim_C3_log_per_request (disk : String → List Nat)
    (routes : List RouteObject) (st : Store) (req : Request) :
    (matchRoute routes req.url = none →
      (handle disk routes st req).log = []) ∧
    (∀ r, matchRoute routes req.url = some r →
      storeGet st req.url = none →
      (handle disk routes st req).log =
        [req.method ++ " " ++ req.url ++ " 200"]) ∧
    (∀ r c, matchRoute routes req.url = some r →
      storeGet st req.url = some c →
      (handle disk routes st req).log =
        [req.method ++ " " ++ req.url ++ " 200 (from cache)"]) := by
  refine ⟨?_, ?_, ?_⟩
  · intro hnone
    rw [handle_404 disk routes st req hnone]
  · intro r hm hs
    rw [handle_miss disk routes st req r hm hs]
  · intro r c hm hs
    rw [handle_hit disk routes st req r c hm hs]

/-- C3 witness: the three log shapes at concrete inputs. -/
theorem claim_C3_log_per_request_witness :
    (handle diskTwo [] ([] : Store) reqX).log = [] ∧
    (handle diskTwo [routeA] ([] : Store) reqX).log =
      ["GET /x.txt 200"] ∧
    (handle diskTwo [routeA] ([("/x.txt", [1])] : Store) reqX).log =
      ["GET /x.txt 200 (from cache)"] :=
  ⟨(claim_C3_log_per_request diskTwo [] [] reqX).1 (by decide),
   (claim_C3_log_per_request diskTwo [routeA] [] reqX).2.1 routeA
     (by decide) (by decide),
   (claim_C3_log_per_request diskTwo [routeA] [("/x.txt", [1])] reqX).2.2
     routeA [1] (by decide) (by decide)⟩

/-- C2 counterexample: the cache is one module-level store shared by all
handlers.  Handler A (routes `[routeA]`, file `a/x.txt`, bytes `[1]`)
populates the store for `/x.txt`; handler B (routes `[routeB]`, file
`b/x.txt`, bytes `[2]`) then serves A's bytes from the shared store
instead of its own file's bytes, which it serves when the store entry is
absent. -/
theorem claim_C2_counterexample :
    (handle diskTwo [routeB]
      (handle diskTwo [routeA] ([] : Store) reqX).store reqX).response.body
        = [1] ∧
    (handle diskTwo [routeB] ([] : Store) reqX).response.body = [2] ∧
    diskTwo routeB.file = [2] := by
  exact ⟨rfl, rfl, rfl⟩

/-- C2 amended: the ContentCache is a single process-wide store shared
by every handler `burmaStatic` returns; after one handler serves a
cache-miss request, any other handler with a route for the same URL
serves the first handler's file content from the shared cache,
regardless of which file its own route names. -/
theorem claim_C2_shared_cache (disk : String → List Nat)
    (routesA routesB : List RouteObject) (st : Store) (req : Request)
    (rA rB : RouteObject)
    (hA : matchRoute routesA req.url = some rA)
    (hs : storeGet st req.url = none)
    (hB : matchRoute routesB req.url = some rB) :
    (handle disk routesB
      (handle disk routesA st req).store req).response.body =
        disk rA.file := by
  have huA : rA.url = req.url := matchRoute_some_url _ _ _ hA
  have h1 := handle_miss disk routesA st req rA hA hs
  have hget : storeGet (handle disk routesA st req).store req.url =
      some (disk rA.file) := by
    rw [h1, ← huA]
    exact storeGet_set_self st rA.url (disk rA.file)
  rw [handle_hit disk routesB (handle disk routesA st req).store req rB
    (disk rA.file) hB hget]

/-- C2 witness: handler B serves handler A's bytes. -/
theorem claim_C2_shared_cache_witness :
    (handle diskTwo [routeB]
      (handle diskTwo [routeA] ([] : Store) reqX).store reqX).response.body
        = diskTwo routeA.file :=
  claim_C2_shared_cache diskTwo [routeA] [routeB] [] reqX routeA routeB
    (by decide) (by decide) (by decide)

/-- C1 counterexample: under the default `staticDir` of `"."`,
`index.html` one level deep in subdirectory `blog` does NOT get
`url == join(rootPath, "blog")`: the `slice(1)` in the `_dir_name`
computation strips the leading segment of the parsed directory, which
under `"."` is the subdirectory itself, so the route's url collapses to
the root path. -/
theorem claim_C1_counterexample :
    (generateRoutes mtNone { rootPath := some "/", staticDir := some "." }
      ["blog/index.html"]).map (fun r => r.url) = ["/"] ∧
    ("/" : String) ≠ pathJoin ["/", "blog"] := by
  constructor
  · rfl
  · decide

/-- C1 amended: for a named `staticDir` (so that collected paths start
with the static-root segment) the six-case table holds as the spec
states it: `index.html` at the root maps to `rootPath`, `index.html`
under `blog` to `join(rootPath, "blog")`, `about.html` at the root to
`join(rootPath, "about")`, `logo.png` at the root to
`join(rootPath, "logo.png")`, and `logo.png` under `assets` to
`join(rootPath, "assets", "logo.png")`.  Under the default `staticDir`
of `"."`, however, the first directory segment of every nested file is
stripped from the URL: `blog/index.html` maps to the root path and
`assets/logo.png` to `join(rootPath, "logo.png")` (root-level files
still map as the table says). -/
theorem claim_C1_classification (root : String) (mt : String → MimeResult)
    (h : root ≠ "") :
    ((generateRoutes mt { rootPath := some root, staticDir := some "public" }
        pubFiles).map (fun r => r.url) =
      [root, pathJoin [root, "blog"], pathJoin [root, "about"],
       pathJoin [root, "logo.png"], pathJoin [root, "assets", "logo.png"]]) ∧
    ((generateRoutes mt { rootPath := some "/", staticDir := some "." }
        dotFiles).map (fun r => r.url) =
      ["/", "/", "/about", "/logo.png", "/logo.png"]) := by
  constructor
  · rw [generateRoutes_eq_map]
    have hrp : rootpathOf (some root) = root := by simp [rootpathOf, h]
    have e1 : parseRel "public/index.html" =
        ⟨"public", "index.html", "index", ".html", ""⟩ := rfl
    have e2 : parseRel "public/blog/index.html" =
        ⟨"public/blog", "index.html", "index", ".html", "blog"⟩ := rfl
    have e3 : parseRel "public/about.html" =
        ⟨"public", "about.html", "about", ".html", ""⟩ := rfl
    have e4 : parseRel "public/logo.png" =
        ⟨"public", "logo.png", "logo", ".png", ""⟩ := rfl
    have e5 : parseRel "public/assets/logo.png" =
        ⟨"public/assets", "logo.png", "logo", ".png", "assets"⟩ := rfl
    simp only [pubFiles, List.map_cons, List.map_nil, routeOf,
      routeOfWithMime, e1, e2, e3, e4, e5, hrp, staticDirOf]
    simp [classifyUrl]
  · rfl

/-- C1 witness: the named-static-dir table at `rootPath "/"`. -/
theorem claim_C1_classification_witness :
    (generateRoutes mtNone { rootPath := some "/", staticDir := some "public" }
        pubFiles).map (fun r => r.url) =
      ["/", pathJoin ["/", "blog"], pathJoin ["/", "about"],
       pathJoin ["/", "logo.png"], pathJoin ["/", "assets", "logo.png"]] :=
  (claim_C1_classification "/" mtNone (by decide)).1

/-- C8: within one `generateRoutes` run the resolver is invoked at most
once per distinct extension (the invoked-extension list has no
duplicates, and every route's MIME fields come from the resolver's
result for its file's extension via the memo), and an extension the
resolver cannot resolve (both fields absent) yields empty-string `mime`
and `typeofMime` on the route instead of a failure. -/
theorem claim_C8_mime_memo (mt : String → MimeResult) (opts : GenOptions)
    (files : List String) :
    (genCalls mt opts files).Nodup ∧
    (generateRoutes mt opts files =
      files.map (routeOf mt (rootpathOf opts.rootPath)
        (staticDirOf opts.staticDir))) ∧
    (∀ f, mt (parseRel f).ext = ⟨none, none⟩ →
      (routeOf mt (rootpathOf opts.rootPath) (staticDirOf opts.staticDir)
        f).mime = "" ∧
      (routeOf mt (rootpathOf opts.rootPath) (staticDirOf opts.staticDir)
        f).typeofMime = "") := by
  refine ⟨genCalls_nodup mt opts files, generateRoutes_eq_map mt opts files,
    ?_⟩
  intro f hf
  constructor <;> simp [routeOf, routeOfWithMime, hf]

/-- C8 witness: three files, two distinct extensions, an unresolvable
one degrading to empty strings. -/
theorem claim_C8_mime_memo_witness :
    (genCalls mtNone { rootPath := none, staticDir := none }
      ["a.html", "b.html", "c.css"]).Nodup ∧
    (routeOf mtNone (rootpathOf none) (staticDirOf none) "a.xyz").mime = "" ∧
    (routeOf mtNone (rootpathOf none) (staticDirOf none)
      "a.xyz").typeofMime = "" :=
  ⟨(claim_C8_mime_memo mtNone { rootPath := none, staticDir := none }
      ["a.html", "b.html", "c.css"]).1,
   (claim_C8_mime_memo mtNone { rootPath := none, staticDir := none }
      []).2.2 "a.xyz" rfl⟩

/-- C9: the six placement/kind conditions of the `if/else` chain are
exhaustive (for any parsed file at least one holds, and the chain fires
the first that does), and since the effective root path is never the
empty string, every produced route's `url` is non-empty: the initial
`""` never survives. -/
theorem claim_C9_chain_exhaustive (mt : String → MimeResult)
    (opts : GenOptions) (files : List String) (sd dir base ext : String) :
    ((dir = sd ∧ base = "index.html") ∨ (dir ≠ sd ∧ base = "index.html") ∨
     (dir = sd ∧ ext = ".html") ∨ (dir ≠ sd ∧ ext = ".html") ∨
     (dir = sd ∧ ext ≠ ".html") ∨ (dir ≠ sd ∧ ext ≠ ".html")) ∧
    (∀ r ∈ generateRoutes mt opts files, r.url ≠ "") := by
  constructor
  · tauto
  · intro r hr
    rw [generateRoutes_eq_map] at hr
    obtain ⟨f, hf, rfl⟩ := List.mem_map.mp hr
    simp only [routeOf, routeOfWithMime]
    exact classifyUrl_ne_empty _ _ _ _ _ _ _ (rootpathOf_ne_empty _)

/-- C9 witness: a concretely generated route has a non-empty url. -/
theorem claim_C9_chain_exhaustive_witness :
    (routeOfWithMime "/" "." ⟨none, none⟩ "blog/index.html").url ≠ "" :=
  (claim_C9_chain_exhaustive mtNone
      { rootPath := some "/", staticDir := some "." }
      ["blog/index.html"] "" "" "" "").2
    (routeOfWithMime "/" "." ⟨none, none⟩ "blog/index.html") (by decide)

/-- C10: `createPattern` treats a present-but-empty extension list
differently from an absent one: `some []` produces `<dir>/**/*.\x7b\x7d`
(the `else` branch with an empty alternation group), while only `none`
produces the match-all `<dir>/**/*`, and the two patterns differ. -/
theorem claim_C10_empty_ext_list (d : String) :
    createPattern d (some []) = d ++ "/**/*.\x7b\x7d" ∧
    createPattern d none = d ++ "/**/*" ∧
    createPattern d (some []) ≠ createPattern d none := by
  have hA : createPattern d (some []) = d ++ "/**/*.\x7b\x7d" := by
    simp [createPattern, joinWith, String.append_assoc]
  have hB : createPattern d none = d ++ "/**/*" := rfl
  refine ⟨hA, hB, ?_⟩
  intro he
  rw [hA, hB] at he
  have hlen := congrArg String.length he
  rw [String.length_append, String.length_append] at hlen
  have h8 : ("/**/*.\x7b\x7d" : String).length = 8 := rfl
  have h5 : ("/**/*" : String).length = 5 := rfl
  rw [h8, h5] at hlen
  omega

/-- C10 witness: the two patterns at a concrete directory. -/
theorem claim_C10_empty_ext_list_witness :
    createPattern "/d" (some []) = "/d" ++ "/**/*.\x7b\x7d" ∧
    createPattern "/d" none = "/d" ++ "/**/*" :=
  ⟨(claim_C10_empty_ext_list "/d").1, (claim_C10_empty_ext_list "/d").2.1⟩

end BurmaStatic
